import Mathlib

/-!
Verification of the consultation backend (session manager, audio windowing
buffer, transcription websocket pipeline).

The Python source is shallowly embedded:
  * Python dicts become association lists (`alist_lookup` / `alist_set` /
    `alist_erase`); `alist_set` inserts at the end when the key is absent and
    replaces in place otherwise, matching dict insertion-order semantics.
  * Audio samples are the decoded 16-bit integer values; the division by
    32768.0 on the way to float32 is an exact injective rescaling, so the
    windowing logic is unchanged by modelling samples as `Int`.
  * Fallible external calls (websocket `send_text`, collaborator model calls)
    are modelled as `Except`-valued parameters or a `send_ok` flag on the
    connection handle; a Python `for` loop whose body raises is embedded as a
    recursion that aborts at the first failing element.
  * `RefModel` additionally models Python's reference semantics for the
    per-room history list (a heap of list objects), which is needed to settle
    aliasing behaviour of `get_history`.
-/

/-! ## Association lists (Python dict embedding) -/

def alist_lookup {κ α : Type} [DecidableEq κ] : List (κ × α) → κ → Option α
  | [], _ => none
  | p :: rest, k => if p.1 = k then some p.2 else alist_lookup rest k

def alist_set {κ α : Type} [DecidableEq κ] : List (κ × α) → κ → α → List (κ × α)
  | [], k, v => [(k, v)]
  | p :: rest, k, v => if p.1 = k then (k, v) :: rest else p :: alist_set rest k v

def alist_erase {κ α : Type} [DecidableEq κ] : List (κ × α) → κ → List (κ × α)
  | [], _ => []
  | p :: rest, k => if p.1 = k then rest else p :: alist_erase rest k

/-- Distinctness of the keys of an association list (a Python dict never
holds two entries for one key). -/
def alist_keys_nodup {κ α : Type} (l : List (κ × α)) : Prop :=
  (l.map Prod.fst).Nodup

/-! ## transcription_service.py — the audio windowing buffer -/

def SAMPLE_RATE : Nat := 16000

def BUFFER_SECONDS : Nat := 2

/-- The window threshold `SAMPLE_RATE * BUFFER_SECONDS` used in
`process_audio_chunk` (the spec calls it `W`). -/
def windowLen : Nat := SAMPLE_RATE * BUFFER_SECONDS

/-- The buffers are keyed by `(room_id, speaker_id)`. -/
abbrev Key := String × String

/-- `TranscriptionService.buffers`, the per-key audio backlog dict.
`__init__` starts it empty. -/
structure TranscriptionService where
  buffers : List (Key × List Int)
deriving DecidableEq, Repr

/-- `TranscriptionService.process_audio_chunk`: append the decoded samples to
the key's backlog (created empty when absent), and when the backlog reaches
`SAMPLE_RATE * BUFFER_SECONDS` samples return the first such window and keep
the remainder. -/
def process_audio_chunk (svc : TranscriptionService) (room_id speaker_id : String)
    (samples : List Int) : TranscriptionService × Option (List Int) :=
  let key : Key := (room_id, speaker_id)
  let buf := ((alist_lookup svc.buffers key).getD []) ++ samples
  if windowLen ≤ buf.length then
    (⟨alist_set svc.buffers key (buf.drop windowLen)⟩, some (buf.take windowLen))
  else
    (⟨alist_set svc.buffers key buf⟩, none)

/-- The single-backlog core of `process_audio_chunk`: new backlog together
with the emitted window, as a function of the prior backlog and the frame. -/
def push (buf frame : List Int) : List Int × Option (List Int) :=
  let b := buf ++ frame
  if windowLen ≤ b.length then (b.drop windowLen, some (b.take windowLen))
  else (b, none)

/-- Folding `push` over a sequence of frames, collecting the emitted windows
in stream order. -/
def pushAll (buf : List Int) : List (List Int) → List Int × List (List Int)
  | [] => (buf, [])
  | f :: fs =>
    match push buf f with
    | (b, none) => pushAll b fs
    | (b, some w) =>
      let r := pushAll b fs
      (r.1, w :: r.2)

/-- Calling `process_audio_chunk` once per frame of a sequence, for a fixed
`(room_id, speaker_id)` key, collecting the emitted windows in order. -/
def process_frames (svc : TranscriptionService) (room_id speaker_id : String) :
    List (List Int) → TranscriptionService × List (List Int)
  | [] => (svc, [])
  | f :: fs =>
    match process_audio_chunk svc room_id speaker_id f with
    | (svc2, none) => process_frames svc2 room_id speaker_id fs
    | (svc2, some w) =>
      let r := process_frames svc2 room_id speaker_id fs
      (r.1, w :: r.2)

/-! ## session_manager.py -/

/-- A websocket handle: an identity plus whether its `send_text` call
succeeds (an external effect that may raise). -/
structure WS where
  id : Nat
  send_ok : Bool
deriving DecidableEq, Repr

/-- One entry of a room's conversation history
(`{"speaker": ..., "text": ..., "sentiment": ...}`). -/
structure HistoryEntry where
  speaker : String
  text : String
  sentiment : Option String
deriving DecidableEq, Repr

/-- The per-room dict built by `_ensure_room_exists`. -/
structure Room where
  signal_sockets : List (String × WS)
  transcribe_sockets : List (String × WS)
  history : List HistoryEntry
  checklist_step : String
deriving DecidableEq, Repr

/-- `SessionManager.rooms`, the registry of active rooms. -/
structure SessionManager where
  rooms : List (String × Room)
deriving DecidableEq, Repr

/-- The default room state created by `_ensure_room_exists`. -/
def defaultRoom : Room :=
  ⟨[], [], [], "Introduction"⟩

/-- `SessionManager._ensure_room_exists`. -/
def _ensure_room_exists (sm : SessionManager) (room_id : String) : SessionManager :=
  match alist_lookup sm.rooms room_id with
  | some _ => sm
  | none => ⟨alist_set sm.rooms room_id defaultRoom⟩

/-- `SessionManager._cleanup_room_if_empty`. -/
def _cleanup_room_if_empty (sm : SessionManager) (room_id : String) : SessionManager :=
  match alist_lookup sm.rooms room_id with
  | some room =>
    if room.signal_sockets = [] ∧ room.transcribe_sockets = [] then
      ⟨alist_erase sm.rooms room_id⟩
    else sm
  | none => sm

/-- `SessionManager.add_signal_socket`. -/
def add_signal_socket (sm : SessionManager) (room_id speaker_id : String) (ws : WS) :
    SessionManager :=
  let sm := _ensure_room_exists sm room_id
  match alist_lookup sm.rooms room_id with
  | some room =>
    ⟨alist_set sm.rooms room_id
      { room with signal_sockets := alist_set room.signal_sockets speaker_id ws }⟩
  | none => sm

/-- `SessionManager.remove_signal_socket`. -/
def remove_signal_socket (sm : SessionManager) (room_id speaker_id : String) :
    SessionManager :=
  match alist_lookup sm.rooms room_id with
  | some room =>
    let room2 :=
      if (alist_lookup room.signal_sockets speaker_id).isSome then
        { room with signal_sockets := alist_erase room.signal_sockets speaker_id }
      else room
    _cleanup_room_if_empty ⟨alist_set sm.rooms room_id room2⟩ room_id
  | none => sm

/-- `SessionManager.add_transcribe_socket`. -/
def add_transcribe_socket (sm : SessionManager) (room_id speaker_id : String) (ws : WS) :
    SessionManager :=
  let sm := _ensure_room_exists sm room_id
  match alist_lookup sm.rooms room_id with
  | some room =>
    ⟨alist_set sm.rooms room_id
      { room with transcribe_sockets := alist_set room.transcribe_sockets speaker_id ws }⟩
  | none => sm

/-- `SessionManager.remove_transcribe_socket`. -/
def remove_transcribe_socket (sm : SessionManager) (room_id speaker_id : String) :
    SessionManager :=
  match alist_lookup sm.rooms room_id with
  | some room =>
    let room2 :=
      if (alist_lookup room.transcribe_sockets speaker_id).isSome then
        { room with transcribe_sockets := alist_erase room.transcribe_sockets speaker_id }
      else room
    _cleanup_room_if_empty ⟨alist_set sm.rooms room_id room2⟩ room_id
  | none => sm

/-- The `for speaker_id, ws in signal_sockets.items()` loop of `relay_signal`:
each non-sender socket gets one `send_text`; a raising send aborts the loop.
Returns the deliveries performed (role, payload) and whether a send raised. -/
def relay_send (sender_id data : String) :
    List (String × WS) → List (String × String) × Bool
  | [] => ([], false)
  | p :: rest =>
    if p.1 ≠ sender_id then
      if p.2.send_ok then
        let r := relay_send sender_id data rest
        ((p.1, data) :: r.1, r.2)
      else ([], true)
    else relay_send sender_id data rest

/-- `SessionManager.relay_signal`. -/
def relay_signal (sm : SessionManager) (room_id sender_id data : String) :
    List (String × String) × Bool :=
  match alist_lookup sm.rooms room_id with
  | some room => relay_send sender_id data room.signal_sockets
  | none => ([], false)

/-- The `for ws in transcribe_sockets.values()` loop of `broadcast_transcribe`:
every socket gets one `send_text` with the payload; a raising send aborts the
loop (the exception propagates to the caller). The payload type is opaque to
the loop. Returns the deliveries performed and whether a send raised. -/
def broadcast_send {α : Type} (data : α) :
    List (String × WS) → List (String × α) × Bool
  | [] => ([], false)
  | p :: rest =>
    if p.2.send_ok then
      let r := broadcast_send data rest
      ((p.1, data) :: r.1, r.2)
    else ([], true)

/-- `SessionManager.broadcast_transcribe`. It mutates no registry state:
its only effects are the sends (and possibly a raised exception). -/
def broadcast_transcribe {α : Type} (sm : SessionManager) (room_id : String) (data : α) :
    List (String × α) × Bool :=
  match alist_lookup sm.rooms room_id with
  | some room => broadcast_send data room.transcribe_sockets
  | none => ([], false)

/-- `SessionManager.add_to_history`. -/
def add_to_history (sm : SessionManager) (room_id speaker_id text : String)
    (sentiment : Option String) : SessionManager :=
  match alist_lookup sm.rooms room_id with
  | some room =>
    ⟨alist_set sm.rooms room_id
      { room with history := room.history ++ [⟨speaker_id, text, sentiment⟩] }⟩
  | none => sm

/-- `SessionManager.get_history` (value level:
`self.rooms.get(room_id, \x7b\x7d).get("history", [])`). -/
def get_history (sm : SessionManager) (room_id : String) : List HistoryEntry :=
  ((alist_lookup sm.rooms room_id).map Room.history).getD []

/-- `SessionManager.update_checklist_step`. -/
def update_checklist_step (sm : SessionManager) (room_id step : String) :
    SessionManager :=
  match alist_lookup sm.rooms room_id with
  | some room => ⟨alist_set sm.rooms room_id { room with checklist_step := step }⟩
  | none => sm

/-- `SessionManager.get_checklist_step`. -/
def get_checklist_step (sm : SessionManager) (room_id : String) : String :=
  ((alist_lookup sm.rooms room_id).map Room.checklist_step).getD "Introduction"

/-! ## main.py — the transcription websocket pipeline (`ws_transcribe`) -/

/-- Outbound events broadcast on the transcription channel (the JSON payloads
built in `ws_transcribe`; serialization is opaque to the broadcaster). -/
inductive Event where
  | transcript (speaker text : String) (sentiment : Option String)
  | question (questions : List String)
deriving DecidableEq, Repr

/-- Inbound messages after the join, dispatched on `msg.get("type")`; the
audio payload carries the decoded samples (base64/PCM16 decoding is the
boundary layer's job). Unrecognized types fall through the dispatch. -/
inductive Msg where
  | audio (data : List Int)
  | update_checklist (step : String)
  | other
deriving DecidableEq, Repr

/-- The collaborator calls made by the pipeline, as fallible external
functions: `transcribe_chunk` and `generate_question` may raise; the raw
sentiment pipeline returns a label and a confidence score (the float score is
modelled as a rational). -/
structure Collabs where
  transcribe_chunk : List Int → Except Unit String
  sentiment_result : String → Except Unit (String × Rat)
  generate_question : List HistoryEntry → String → Except Unit (List String)

/-- `SentimentAnalyzer.analyze`: thresholds the raw pipeline result at
confidence 0.85 and degrades any internal error to `"Neutral"` (the
`try/except` inside `analyze`). -/
def analyze (c : Collabs) (text : String) : String :=
  match c.sentiment_result text with
  | .error _ => "Neutral"
  | .ok lr =>
    if lr.1 = "POSITIVE" ∧ (85 : Rat) / 100 < lr.2 then "Positive"
    else if lr.1 = "NEGATIVE" ∧ (85 : Rat) / 100 < lr.2 then "Negative"
    else "Neutral"

/-- Outcome of handling one inbound message in the `while True` loop of
`ws_transcribe`: updated shared state, the per-connection deliveries made by
broadcasts during the handling, and whether the loop terminated (an exception
reached the handler's `except`, which removes this connection's transcribe
socket and ends the handler). -/
structure StepResult where
  sm : SessionManager
  ts : TranscriptionService
  sent : List (String × Event)
  terminated : Bool
deriving DecidableEq, Repr

/-- One iteration of `ws_transcribe`'s message loop for an `Active`
connection `(room_id, speaker_id)`: the audio pipeline (buffer, transcribe,
sentiment, history, broadcasts, question generation), the checklist update
branch, and the fall-through for unknown types. Any exception escaping the
pipeline is caught by the handler's outer `except Exception`, which removes
this connection's transcribe socket and terminates the loop. -/
def handle_message (c : Collabs) (sm : SessionManager) (ts : TranscriptionService)
    (room_id speaker_id : String) : Msg → StepResult
  | .audio data =>
    match process_audio_chunk ts room_id speaker_id data with
    | (ts2, none) => ⟨sm, ts2, [], false⟩
    | (ts2, some chunk) =>
      match c.transcribe_chunk chunk with
      | .error _ => ⟨remove_transcribe_socket sm room_id speaker_id, ts2, [], true⟩
      | .ok full_text =>
        if full_text = "" then ⟨sm, ts2, [], false⟩
        else
          let sentiment := if speaker_id = "Patient" then some (analyze c full_text) else none
          let sm2 := add_to_history sm room_id speaker_id full_text sentiment
          let d1 := broadcast_transcribe sm2 room_id (Event.transcript speaker_id full_text sentiment)
          if d1.2 then ⟨remove_transcribe_socket sm2 room_id speaker_id, ts2, d1.1, true⟩
          else if speaker_id = "Patient" then
            match c.generate_question (get_history sm2 room_id) (get_checklist_step sm2 room_id) with
            | .error _ => ⟨remove_transcribe_socket sm2 room_id speaker_id, ts2, d1.1, true⟩
            | .ok questions =>
              if questions = [] then ⟨sm2, ts2, d1.1, false⟩
              else
                let d2 := broadcast_transcribe sm2 room_id (Event.question questions)
                if d2.2 then
                  ⟨remove_transcribe_socket sm2 room_id speaker_id, ts2, d1.1 ++ d2.1, true⟩
                else ⟨sm2, ts2, d1.1 ++ d2.1, false⟩
          else ⟨sm2, ts2, d1.1, false⟩
  | .update_checklist step => ⟨update_checklist_step sm room_id step, ts, [], false⟩
  | .other => ⟨sm, ts, [], false⟩

/-- Running `ws_transcribe`'s message loop over a finite inbound message
sequence: processing stops at the first terminating step. -/
def ws_loop (c : Collabs) (sm : SessionManager) (ts : TranscriptionService)
    (room_id speaker_id : String) : List Msg → StepResult
  | [] => ⟨sm, ts, [], false⟩
  | m :: ms =>
    let r := handle_message c sm ts room_id speaker_id m
    if r.terminated then ⟨r.sm, r.ts, r.sent, true⟩
    else
      let r2 := ws_loop c r.sm r.ts room_id speaker_id ms
      ⟨r2.sm, r2.ts, r.sent ++ r2.sent, r2.terminated⟩

/-! ## Reference-semantics model of the history list

Python's `get_history` returns the room's `history` **list object**, not a
copy; `add_to_history` mutates that same object in place. To reason about
this aliasing the model below gives each history list an identity: the heap
is the sequence of allocated list objects and a room's `history` field holds
an index (reference) into it. -/

namespace RefModel

/-- A room whose `history` field is a reference to a heap-allocated list
object (the other fields are as in the value-level model). -/
structure Room where
  signal_sockets : List (String × WS)
  transcribe_sockets : List (String × WS)
  history : Nat
  checklist_step : String
deriving DecidableEq, Repr

/-- Registry plus heap of allocated history-list objects. -/
structure State where
  rooms : List (String × RefModel.Room)
  heap : List (List HistoryEntry)
deriving DecidableEq, Repr

/-- Allocate a fresh list object, returning its reference. -/
def alloc (s : State) (v : List HistoryEntry) : State × Nat :=
  (⟨s.rooms, s.heap ++ [v]⟩, s.heap.length)

/-- Dereference a history-list object. -/
def readRef (s : State) (r : Nat) : List HistoryEntry :=
  s.heap.getD r []

/-- Overwrite a history-list object in place. -/
def writeRef (s : State) (r : Nat) (v : List HistoryEntry) : State :=
  ⟨s.rooms, s.heap.set r v⟩

/-- `_ensure_room_exists` with a fresh empty history object allocated for a
new room. -/
def ensure_room (s : State) (room_id : String) : State :=
  match alist_lookup s.rooms room_id with
  | some _ => s
  | none =>
    let a := alloc s []
    ⟨alist_set a.1.rooms room_id ⟨[], [], a.2, "Introduction"⟩, a.1.heap⟩

/-- `add_transcribe_socket` in the reference model. -/
def add_transcribe_socket (s : State) (room_id speaker_id : String) (ws : WS) : State :=
  let s := ensure_room s room_id
  match alist_lookup s.rooms room_id with
  | some room =>
    ⟨alist_set s.rooms room_id
      { room with transcribe_sockets := alist_set room.transcribe_sockets speaker_id ws },
     s.heap⟩
  | none => s

/-- `add_to_history`: `self.rooms[room_id]["history"].append(...)` mutates
the room's history object in place. -/
def add_to_history (s : State) (room_id speaker_id text : String)
    (sentiment : Option String) : State :=
  match alist_lookup s.rooms room_id with
  | some room =>
    writeRef s room.history (readRef s room.history ++ [⟨speaker_id, text, sentiment⟩])
  | none => s

/-- `get_history`: returns the room's history **object** (a reference), or a
freshly allocated empty list when the room is absent
(`rooms.get(room_id, \x7b\x7d).get("history", [])` builds a new `[]`). -/
def get_history (s : State) (room_id : String) : State × Nat :=
  match alist_lookup s.rooms room_id with
  | some room => (s, room.history)
  | none => alloc s []

end RefModel

/-! ## Association-list lemmas -/

theorem alist_lookup_set_self {κ α : Type} [DecidableEq κ] (l : List (κ × α)) (k : κ) (v : α) :
    alist_lookup (alist_set l k v) k = some v := by
  induction l with
  | nil => simp [alist_set, alist_lookup]
  | cons p rest ih =>
    by_cases h : p.1 = k
    · simp [alist_set, h, alist_lookup]
    · simp [alist_set, h, alist_lookup, ih]

theorem alist_lookup_set_ne {κ α : Type} [DecidableEq κ] (l : List (κ × α)) {k k' : κ} (v : α)
    (h : k' ≠ k) : alist_lookup (alist_set l k v) k' = alist_lookup l k' := by
  induction l with
  | nil => simp [alist_set, alist_lookup, Ne.symm h]
  | cons p rest ih =>
    by_cases hp : p.1 = k
    · subst hp
      simp [alist_set, alist_lookup, Ne.symm h]
    · by_cases hp' : p.1 = k'
      · simp [alist_set, hp, alist_lookup, hp', h]
      · simp [alist_set, hp, alist_lookup, hp', ih]

theorem alist_set_of_lookup_eq {κ α : Type} [DecidableEq κ] {l : List (κ × α)} {k : κ} {v : α}
    (h : alist_lookup l k = some v) : alist_set l k v = l := by
  induction l with
  | nil => simp [alist_lookup] at h
  | cons p rest ih =>
    rcases p with ⟨pk, pv⟩
    by_cases hp : pk = k
    · subst hp
      simp [alist_lookup] at h
      simp [alist_set, h]
    · simp [alist_lookup, hp] at h
      simp [alist_set, hp, ih h]

theorem alist_erase_of_lookup_none {κ α : Type} [DecidableEq κ] {l : List (κ × α)} {k : κ}
    (h : alist_lookup l k = none) : alist_erase l k = l := by
  induction l with
  | nil => simp [alist_erase]
  | cons p rest ih =>
    by_cases hp : p.1 = k
    · simp [alist_lookup, hp] at h
    · simp [alist_lookup, hp] at h
      simp [alist_erase, hp, ih h]

theorem alist_lookup_eq_none_iff {κ α : Type} [DecidableEq κ] (l : List (κ × α)) (k : κ) :
    alist_lookup l k = none ↔ k ∉ l.map Prod.fst := by
  induction l with
  | nil => simp [alist_lookup]
  | cons p rest ih =>
    by_cases hp : p.1 = k
    · simp [alist_lookup, hp]
    · simp [alist_lookup, hp, ih, Ne.symm hp]

theorem alist_mem_keys_set {κ α : Type} [DecidableEq κ] (l : List (κ × α)) (k k' : κ) (v : α) :
    k' ∈ (alist_set l k v).map Prod.fst ↔ k' ∈ l.map Prod.fst ∨ k' = k := by
  induction l with
  | nil => simp [alist_set]
  | cons p rest ih =>
    by_cases hp : p.1 = k
    · subst hp
      simp [alist_set]
      tauto
    · simp [alist_set, hp, ih]
      tauto

theorem alist_keys_nodup_set {κ α : Type} [DecidableEq κ] {l : List (κ × α)} (k : κ) (v : α)
    (h : alist_keys_nodup l) : alist_keys_nodup (alist_set l k v) := by
  induction l with
  | nil => simp [alist_set, alist_keys_nodup]
  | cons p rest ih =>
    rcases p with ⟨pk, pv⟩
    unfold alist_keys_nodup at h ⊢
    rw [List.map_cons, List.nodup_cons] at h
    by_cases hp : pk = k
    · subst hp
      have hset : alist_set ((pk, pv) :: rest) pk v = (pk, v) :: rest := by
        simp [alist_set]
      rw [hset, List.map_cons, List.nodup_cons]
      exact h
    · have hset : alist_set ((pk, pv) :: rest) k v = (pk, pv) :: alist_set rest k v := by
        simp [alist_set, hp]
      rw [hset, List.map_cons, List.nodup_cons]
      constructor
      · intro hmem
        rcases (alist_mem_keys_set rest k pk v).mp hmem with hc | hc
        · exact h.1 hc
        · exact hp hc
      · exact ih h.2

theorem alist_lookup_erase_self {κ α : Type} [DecidableEq κ] {l : List (κ × α)} (k : κ)
    (h : alist_keys_nodup l) : alist_lookup (alist_erase l k) k = none := by
  induction l with
  | nil => simp [alist_erase, alist_lookup]
  | cons p rest ih =>
    rcases p with ⟨pk, pv⟩
    unfold alist_keys_nodup at h
    rw [List.map_cons, List.nodup_cons] at h
    by_cases hp : pk = k
    · subst hp
      simp only [alist_erase, if_pos rfl]
      exact (alist_lookup_eq_none_iff rest pk).mpr h.1
    · simp [alist_erase, hp, alist_lookup, ih h.2]

/-! ## Windowing-buffer lemmas -/

theorem windowLen_eq : windowLen = 32000 := by
  norm_num [windowLen, SAMPLE_RATE, BUFFER_SECONDS]

theorem windowLen_pos : 0 < windowLen := by
  rw [windowLen_eq]; norm_num

theorem process_audio_chunk_eq_push (svc : TranscriptionService)
    (room_id speaker_id : String) (samples : List Int) :
    process_audio_chunk svc room_id speaker_id samples =
      (⟨alist_set svc.buffers (room_id, speaker_id)
          (push ((alist_lookup svc.buffers (room_id, speaker_id)).getD []) samples).1⟩,
       (push ((alist_lookup svc.buffers (room_id, speaker_id)).getD []) samples).2) := by
  simp only [process_audio_chunk, push]
  split <;> simp

theorem pushAll_cons_emit {buf f : List Int} (fs : List (List Int))
    (h : windowLen ≤ (buf ++ f).length) :
    pushAll buf (f :: fs) =
      ((pushAll ((buf ++ f).drop windowLen) fs).1,
       (buf ++ f).take windowLen :: (pushAll ((buf ++ f).drop windowLen) fs).2) := by
  have h2 : windowLen ≤ buf.length + f.length := by simpa using h
  simp [pushAll, push, h2]

theorem pushAll_cons_acc {buf f : List Int} (fs : List (List Int))
    (h : ¬ windowLen ≤ (buf ++ f).length) :
    pushAll buf (f :: fs) = pushAll (buf ++ f) fs := by
  have h2 : ¬ windowLen ≤ buf.length + f.length := by simpa using h
  simp [pushAll, push, h2]

theorem pushAll_join : ∀ (fs : List (List Int)) (buf : List Int),
    ((pushAll buf fs).2).join ++ (pushAll buf fs).1 = buf ++ fs.join := by
  intro fs
  induction fs with
  | nil => intro buf; simp [pushAll]
  | cons f fs ih =>
    intro buf
    by_cases h : windowLen ≤ (buf ++ f).length
    · rw [pushAll_cons_emit fs h]
      simp only [List.join_cons, List.append_assoc]
      rw [ih]
      rw [← List.append_assoc, List.take_append_drop]
      simp
    · rw [pushAll_cons_acc fs h, ih]
      simp

theorem pushAll_mem_length : ∀ (fs : List (List Int)) (buf w : List Int),
    w ∈ (pushAll buf fs).2 → w.length = windowLen := by
  intro fs
  induction fs with
  | nil => intro buf w hw; simp [pushAll] at hw
  | cons f fs ih =>
    intro buf w hw
    by_cases h : windowLen ≤ (buf ++ f).length
    · rw [pushAll_cons_emit fs h] at hw
      simp at hw
      rcases hw with hw | hw
      · subst hw
        have h2 : windowLen ≤ buf.length + f.length := by simpa using h
        simp [List.length_take]
        omega
      · exact ih _ _ hw
    · rw [pushAll_cons_acc fs h] at hw
      exact ih _ _ hw

theorem pushAll_backlog_lt : ∀ (fs : List (List Int)) (buf : List Int),
    (∀ f ∈ fs, f.length ≤ windowLen) → buf.length < windowLen →
    (pushAll buf fs).1.length < windowLen := by
  intro fs
  induction fs with
  | nil => intro buf _ hb; simpa [pushAll] using hb
  | cons f fs ih =>
    intro buf hsm hb
    have hf : f.length ≤ windowLen := hsm f (by simp)
    have hrest : ∀ g ∈ fs, g.length ≤ windowLen := fun g hg => hsm g (by simp [hg])
    by_cases h : windowLen ≤ (buf ++ f).length
    · rw [pushAll_cons_emit fs h]
      apply ih _ hrest
      simp only [List.length_drop, List.length_append]
      omega
    · rw [pushAll_cons_acc fs h]
      apply ih _ hrest
      omega

theorem join_length_of_windows {L : List (List Int)}
    (h : ∀ w ∈ L, w.length = windowLen) :
    L.join.length = L.length * windowLen := by
  induction L with
  | nil => simp
  | cons w ws ih =>
    simp only [List.join_cons, List.length_append, List.length_cons]
    rw [h w (by simp), ih (fun v hv => h v (by simp [hv]))]
    ring

theorem pushAll_count (fs : List (List Int)) (hsm : ∀ f ∈ fs, f.length ≤ windowLen) :
    ((pushAll [] fs).2).length = fs.join.length / windowLen := by
  have hjoin := pushAll_join fs []
  have hlens := fun w hw => pushAll_mem_length fs [] w hw
  have hlt := pushAll_backlog_lt fs [] hsm (by simpa using windowLen_pos)
  have hlen : ((pushAll [] fs).2).length * windowLen + (pushAll [] fs).1.length =
      fs.join.length := by
    have := congrArg List.length hjoin
    simpa [join_length_of_windows hlens] using this
  rw [← hlen]
  rw [Nat.mul_comm]
  rw [Nat.mul_add_div windowLen_pos]
  simp [Nat.div_eq_of_lt hlt]

theorem process_frames_eq_pushAll : ∀ (fs : List (List Int)) (svc : TranscriptionService)
    (room_id speaker_id : String),
    (process_frames svc room_id speaker_id fs).2 =
      (pushAll ((alist_lookup svc.buffers (room_id, speaker_id)).getD []) fs).2 ∧
    (alist_lookup (process_frames svc room_id speaker_id fs).1.buffers
        (room_id, speaker_id)).getD [] =
      (pushAll ((alist_lookup svc.buffers (room_id, speaker_id)).getD []) fs).1 := by
  intro fs
  induction fs with
  | nil => intro svc r s; simp [process_frames, pushAll]
  | cons f fs ih =>
    intro svc r s
    have hpc := process_audio_chunk_eq_push svc r s f
    rcases hp : push ((alist_lookup svc.buffers (r, s)).getD []) f with ⟨b, ow⟩
    rw [hp] at hpc
    have hlook : (alist_lookup
        (alist_set svc.buffers (r, s) b) (r, s)).getD [] = b := by
      simp [alist_lookup_set_self]
    cases ow with
    | none =>
      have hstep : process_frames svc r s (f :: fs) =
          process_frames ⟨alist_set svc.buffers (r, s) b⟩ r s fs := by
        simp only [process_frames, hpc]
      have hpall : pushAll ((alist_lookup svc.buffers (r, s)).getD []) (f :: fs) =
          pushAll b fs := by
        simp only [pushAll, hp]
      rw [hstep, hpall]
      have := ih ⟨alist_set svc.buffers (r, s) b⟩ r s
      rwa [hlook] at this
    | some w =>
      have hstep : process_frames svc r s (f :: fs) =
          ((process_frames ⟨alist_set svc.buffers (r, s) b⟩ r s fs).1,
           w :: (process_frames ⟨alist_set svc.buffers (r, s) b⟩ r s fs).2) := by
        simp only [process_frames, hpc]
      have hpall : pushAll ((alist_lookup svc.buffers (r, s)).getD []) (f :: fs) =
          ((pushAll b fs).1, w :: (pushAll b fs).2) := by
        simp only [pushAll, hp]
      rw [hstep, hpall]
      have := ih ⟨alist_set svc.buffers (r, s) b⟩ r s
      rw [hlook] at this
      exact ⟨by simp [this.1], by simp [this.2]⟩

/-! ## Claim C1 -/

/-- C1 (amended): for a fixed `(room, speaker)` key and any finite sequence
of frames pushed through `process_audio_chunk` starting from a fresh service,
unconditionally: concatenating the emitted windows (in emission order)
followed by the final backlog reproduces the input sample stream exactly, and
every emitted window has exactly `W = SAMPLE_RATE * BUFFER_SECONDS` samples —
so the windows are pairwise disjoint, in stream order. The window count
equals `⌊N/W⌋` under the additional proviso that each pushed frame holds at
most `W` samples (each call emits at most one window, so an oversized frame
defers its surplus windows; see the counterexample). -/
theorem C1_windowing (frames : List (List Int)) (room_id speaker_id : String) :
    ((process_frames ⟨[]⟩ room_id speaker_id frames).2).join ++
        (alist_lookup (process_frames ⟨[]⟩ room_id speaker_id frames).1.buffers
          (room_id, speaker_id)).getD [] = frames.join ∧
    (∀ w ∈ (process_frames ⟨[]⟩ room_id speaker_id frames).2, w.length = windowLen) ∧
    ((∀ f ∈ frames, f.length ≤ windowLen) →
      ((process_frames ⟨[]⟩ room_id speaker_id frames).2).length =
        frames.join.length / windowLen) := by
  have hb := process_frames_eq_pushAll frames ⟨[]⟩ room_id speaker_id
  have hinit :
      ((alist_lookup (TranscriptionService.mk []).buffers (room_id, speaker_id)).getD [])
        = ([] : List Int) := by
    simp [alist_lookup]
  rw [hinit] at hb
  refine ⟨?_, ?_, fun hsmall => ?_⟩
  · rw [hb.1, hb.2]
    simpa using pushAll_join frames []
  · intro w hw
    rw [hb.1] at hw
    exact pushAll_mem_length frames [] w hw
  · rw [hb.1]
    exact pushAll_count frames hsmall

/-- Witness for `C1_windowing` at the concrete input
`frames = [[7], [11]]` (two one-sample frames), discharging the per-frame
size proviso of the window-count conjunct. -/
theorem C1_windowing_witness :
    (∀ f ∈ [[(7 : Int)], [11]], f.length ≤ windowLen) ∧
    (((process_frames ⟨[]⟩ "R1" "Doctor" [[(7 : Int)], [11]]).2).join ++
        (alist_lookup (process_frames ⟨[]⟩ "R1" "Doctor" [[(7 : Int)], [11]]).1.buffers
          ("R1", "Doctor")).getD [] = [[(7 : Int)], [11]].join ∧
      (∀ w ∈ (process_frames ⟨[]⟩ "R1" "Doctor" [[(7 : Int)], [11]]).2,
        w.length = windowLen) ∧
      ((process_frames ⟨[]⟩ "R1" "Doctor" [[(7 : Int)], [11]]).2).length =
        [[(7 : Int)], [11]].join.length / windowLen) :=
  ⟨by simp [windowLen_eq],
   (C1_windowing [[(7 : Int)], [11]] "R1" "Doctor").1,
   (C1_windowing [[(7 : Int)], [11]] "R1" "Doctor").2.1,
   (C1_windowing [[(7 : Int)], [11]] "R1" "Doctor").2.2 (by simp [windowLen_eq])⟩

/-- Counterexample to C1 as stated: pushing a single frame of
`N = 64000 = 2W` samples emits one window on that call (each call emits at
most one window), whereas the claim requires `⌊N/W⌋ = 2` windows. -/
theorem C1_counterexample :
    ((process_frames ⟨[]⟩ "R1" "Doctor" [List.replicate 64000 (0 : Int)]).2).length = 1 ∧
    (List.replicate 64000 (0 : Int)).length / windowLen = 2 := by
  constructor
  · have hb := process_frames_eq_pushAll [List.replicate 64000 (0 : Int)] ⟨[]⟩ "R1" "Doctor"
    have hinit :
        ((alist_lookup (TranscriptionService.mk []).buffers ("R1", "Doctor")).getD [])
          = ([] : List Int) := by
      simp [alist_lookup]
    rw [hinit] at hb
    have hlen : windowLen ≤ (([] : List Int) ++ List.replicate 64000 (0 : Int)).length := by
      rw [List.nil_append, List.length_replicate, windowLen_eq]
      norm_num
    rw [hb.1, pushAll_cons_emit [] hlen]
    simp only [pushAll, List.length_cons, List.length_nil]
  · rw [List.length_replicate, windowLen_eq]

/-! ## Claim C2 -/

/-- C2: a single `process_audio_chunk` call appends the frame to the key's
backlog (created empty when absent); when the appended backlog reaches `W` it
returns exactly its first `W` samples and retains the remainder, otherwise it
returns no window and the backlog is exactly the appended backlog; backlogs
of other keys are untouched; and result and new backlog are a deterministic
function of the prior backlog and the frame alone. -/
theorem C2_single_call (svc : TranscriptionService) (room_id speaker_id : String)
    (samples : List Int) :
    ((windowLen ≤ (((alist_lookup svc.buffers (room_id, speaker_id)).getD []) ++ samples).length →
        (process_audio_chunk svc room_id speaker_id samples).2 =
          some ((((alist_lookup svc.buffers (room_id, speaker_id)).getD []) ++ samples).take windowLen) ∧
        alist_lookup (process_audio_chunk svc room_id speaker_id samples).1.buffers
            (room_id, speaker_id) =
          some ((((alist_lookup svc.buffers (room_id, speaker_id)).getD []) ++ samples).drop windowLen)) ∧
     ((((alist_lookup svc.buffers (room_id, speaker_id)).getD []) ++ samples).length < windowLen →
        (process_audio_chunk svc room_id speaker_id samples).2 = none ∧
        alist_lookup (process_audio_chunk svc room_id speaker_id samples).1.buffers
            (room_id, speaker_id) =
          some (((alist_lookup svc.buffers (room_id, speaker_id)).getD []) ++ samples)) ∧
     (∀ k2 : Key, k2 ≠ (room_id, speaker_id) →
        alist_lookup (process_audio_chunk svc room_id speaker_id samples).1.buffers k2 =
          alist_lookup svc.buffers k2) ∧
     (∀ svc2 : TranscriptionService,
        alist_lookup svc2.buffers (room_id, speaker_id) =
            alist_lookup svc.buffers (room_id, speaker_id) →
        (process_audio_chunk svc2 room_id speaker_id samples).2 =
          (process_audio_chunk svc room_id speaker_id samples).2 ∧
        alist_lookup (process_audio_chunk svc2 room_id speaker_id samples).1.buffers
            (room_id, speaker_id) =
          alist_lookup (process_audio_chunk svc room_id speaker_id samples).1.buffers
            (room_id, speaker_id))) := by
  have hp := process_audio_chunk_eq_push svc room_id speaker_id samples
  refine ⟨?_, ?_, ?_, ?_⟩
  · intro h
    have h2 : windowLen ≤
        ((alist_lookup svc.buffers (room_id, speaker_id)).getD []).length + samples.length := by
      simpa using h
    rw [hp]
    exact ⟨by simp [push, h2], by simp [push, h2, alist_lookup_set_self]⟩
  · intro h
    have h2 : ¬ windowLen ≤
        ((alist_lookup svc.buffers (room_id, speaker_id)).getD []).length + samples.length := by
      simp only [List.length_append] at h
      omega
    rw [hp]
    exact ⟨by simp [push, h2], by simp [push, h2, alist_lookup_set_self]⟩
  · intro k2 hk2
    rw [hp]
    simpa using alist_lookup_set_ne svc.buffers _ hk2
  · intro svc2 hs
    have hp2 := process_audio_chunk_eq_push svc2 room_id speaker_id samples
    rw [hp, hp2, hs]
    exact ⟨rfl, by simp [alist_lookup_set_self]⟩

/-- Witness for `C2_single_call`: a fresh service receives one 1-sample
frame; the backlog is created, the sample is retained, no window is
emitted. -/
theorem C2_single_call_witness :
    (((alist_lookup (TranscriptionService.mk []).buffers ("R1", "Doctor")).getD [] ++
        ([42] : List Int)).length < windowLen) ∧
    ((process_audio_chunk ⟨[]⟩ "R1" "Doctor" [42]).2 = none ∧
      alist_lookup (process_audio_chunk ⟨[]⟩ "R1" "Doctor" [42]).1.buffers
          ("R1", "Doctor") = some [42]) :=
  ⟨by simp [alist_lookup, windowLen_eq],
   by
    have h := (C2_single_call ⟨[]⟩ "R1" "Doctor" [42]).2.1
      (by simp [alist_lookup, windowLen_eq])
    simpa [alist_lookup] using h⟩

/-! ## Claim C10 -/

/-- C10: for a room id absent from the registry, every state-access
operation is total with a fixed default: `add_to_history` and
`update_checklist_step` are silent no-ops that leave the registry unchanged
(in particular creating no room), `get_history` returns the empty sequence
and `get_checklist_step` returns `"Introduction"`. -/
theorem C10_missing_room_defaults (sm : SessionManager) (room_id : String)
    (h : alist_lookup sm.rooms room_id = none) :
    (∀ speaker_id text sentiment,
        add_to_history sm room_id speaker_id text sentiment = sm) ∧
    (∀ step, update_checklist_step sm room_id step = sm) ∧
    get_history sm room_id = [] ∧
    get_checklist_step sm room_id = "Introduction" := by
  refine ⟨?_, ?_, ?_, ?_⟩
  · intro s t sent
    simp [add_to_history, h]
  · intro st
    simp [update_checklist_step, h]
  · simp [get_history, h]
  · simp [get_checklist_step, h]

/-- Witness for `C10_missing_room_defaults` on the empty registry. -/
theorem C10_missing_room_defaults_witness :
    alist_lookup (SessionManager.mk []).rooms "R9" = none ∧
    (get_history ⟨[]⟩ "R9" = [] ∧ get_checklist_step ⟨[]⟩ "R9" = "Introduction" ∧
      add_to_history ⟨[]⟩ "R9" "Doctor" "hi" none = ⟨[]⟩ ∧
      update_checklist_step ⟨[]⟩ "R9" "Medical History" = ⟨[]⟩) :=
  ⟨rfl, by
    have h := C10_missing_room_defaults ⟨[]⟩ "R9" rfl
    exact ⟨h.2.2.1, h.2.2.2, h.1 "Doctor" "hi" none, h.2.1 "Medical History"⟩⟩

/-! ## Claim C6 -/

/-- When every send succeeds, the relay loop performs exactly one delivery of
the payload to each non-sender entry of the map, in map order. -/
theorem relay_send_ok (sender_id data : String) :
    ∀ l : List (String × WS), (∀ p ∈ l, p.2.send_ok = true) →
    relay_send sender_id data l =
      ((l.filter (fun q => q.1 ≠ sender_id)).map (fun q => (q.1, data)), false) := by
  intro l
  induction l with
  | nil => intro _; simp [relay_send]
  | cons p rest ih =>
    intro hok
    have hrest : ∀ q ∈ rest, q.2.send_ok = true := fun q hq => hok q (by simp [hq])
    by_cases hp : p.1 = sender_id
    · simp [relay_send, List.filter_cons, hp, ih hrest]
    · have hsend : p.2.send_ok = true := hok p (by simp)
      simp [relay_send, List.filter_cons, hp, hsend, ih hrest]

/-- C6: for an existing room whose signaling sends succeed, `relay_signal`
delivers the payload verbatim to exactly the signaling connections registered
under a role other than the sender's role, each exactly once (when the role
keys are distinct), never echoing to the sender's role, and raises nothing;
for an absent room it is a silent no-op. -/
theorem C6_relay_exclusion (sm : SessionManager) (room_id sender_id data : String) (R : Room)
    (hR : alist_lookup sm.rooms room_id = some R)
    (hok : ∀ p ∈ R.signal_sockets, p.2.send_ok = true) :
    relay_signal sm room_id sender_id data =
      ((R.signal_sockets.filter (fun q => q.1 ≠ sender_id)).map (fun q => (q.1, data)),
       false) ∧
    sender_id ∉ ((relay_signal sm room_id sender_id data).1.map Prod.fst) ∧
    (∀ p ∈ (relay_signal sm room_id sender_id data).1, p.2 = data) ∧
    (alist_keys_nodup R.signal_sockets →
      ((relay_signal sm room_id sender_id data).1.map Prod.fst).Nodup) ∧
    (∀ (sm2 : SessionManager) (rid2 : String), alist_lookup sm2.rooms rid2 = none →
      relay_signal sm2 rid2 sender_id data = ([], false)) := by
  have hmain : relay_signal sm room_id sender_id data =
      ((R.signal_sockets.filter (fun q => q.1 ≠ sender_id)).map (fun q => (q.1, data)),
       false) := by
    simp [relay_signal, hR, relay_send_ok sender_id data R.signal_sockets hok]
  refine ⟨hmain, ?_, ?_, ?_, ?_⟩
  · rw [hmain]
    intro hmem
    simp only [List.map_map, List.mem_map, List.mem_filter, Function.comp] at hmem
    rcases hmem with ⟨q, ⟨_, hq⟩, hfst⟩
    simp at hq
    exact hq hfst
  · rw [hmain]
    intro p hp
    simp only [List.mem_map] at hp
    rcases hp with ⟨q, _, hq⟩
    rw [← hq]
  · intro hnd
    rw [hmain]
    have hsub : ((R.signal_sockets.filter (fun q => q.1 ≠ sender_id)).map
        (fun (q : String × WS) => q.1)).Sublist (R.signal_sockets.map (fun q => q.1)) :=
      (List.filter_sublist R.signal_sockets).map (fun q => q.1)
    have hnd2 : (R.signal_sockets.map (fun (q : String × WS) => q.1)).Nodup := hnd
    have := hnd2.sublist hsub
    simpa [List.map_map, Function.comp] using this
  · intro sm2 rid2 h2
    simp [relay_signal, h2]

/-- Witness for `C6_relay_exclusion`: Doctor relays to a room holding Doctor
and Patient signaling connections; only Patient receives the payload. -/
theorem C6_relay_exclusion_witness :
    alist_lookup (SessionManager.mk
        [("R1", ⟨[("Doctor", ⟨0, true⟩), ("Patient", ⟨1, true⟩)], [], [], "Introduction"⟩)]).rooms
        "R1" =
      some ⟨[("Doctor", ⟨0, true⟩), ("Patient", ⟨1, true⟩)], [], [], "Introduction"⟩ ∧
    relay_signal
        ⟨[("R1", ⟨[("Doctor", ⟨0, true⟩), ("Patient", ⟨1, true⟩)], [], [], "Introduction"⟩)]⟩
        "R1" "Doctor" "offer" = ([("Patient", "offer")], false) :=
  ⟨by decide, by
    have h := (C6_relay_exclusion
      ⟨[("R1", ⟨[("Doctor", ⟨0, true⟩), ("Patient", ⟨1, true⟩)], [], [], "Introduction"⟩)]⟩
      "R1" "Doctor" "offer"
      ⟨[("Doctor", ⟨0, true⟩), ("Patient", ⟨1, true⟩)], [], [], "Introduction"⟩
      (by decide) (by decide)).1
    rw [h]
    rfl⟩

/-! ## Claim C5 -/

/-- Removing a signaling socket from an existing room is: erase that role
from the room's signaling map (a no-op erase when the role is absent), store
the room back, then run the empty-room reap check. -/
theorem remove_signal_socket_present (sm : SessionManager) (room_id speaker_id : String)
    (R : Room) (hR : alist_lookup sm.rooms room_id = some R) :
    remove_signal_socket sm room_id speaker_id =
      _cleanup_room_if_empty
        ⟨alist_set sm.rooms room_id
          { R with signal_sockets := alist_erase R.signal_sockets speaker_id }⟩ room_id := by
  unfold remove_signal_socket
  rw [hR]
  by_cases hs : (alist_lookup R.signal_sockets speaker_id).isSome
  · simp [hs]
  · have hnone : alist_lookup R.signal_sockets speaker_id = none := by
      cases h : alist_lookup R.signal_sockets speaker_id
      · rfl
      · rw [h] at hs
        simp at hs
    rw [alist_erase_of_lookup_none hnone]
    simp [hs]

/-- Mirror of `remove_signal_socket_present` for the transcription slot. -/
theorem remove_transcribe_socket_present (sm : SessionManager) (room_id speaker_id : String)
    (R : Room) (hR : alist_lookup sm.rooms room_id = some R) :
    remove_transcribe_socket sm room_id speaker_id =
      _cleanup_room_if_empty
        ⟨alist_set sm.rooms room_id
          { R with transcribe_sockets := alist_erase R.transcribe_sockets speaker_id }⟩
        room_id := by
  unfold remove_transcribe_socket
  rw [hR]
  by_cases hs : (alist_lookup R.transcribe_sockets speaker_id).isSome
  · simp [hs]
  · have hnone : alist_lookup R.transcribe_sockets speaker_id = none := by
      cases h : alist_lookup R.transcribe_sockets speaker_id
      · rfl
      · rw [h] at hs
        simp at hs
    rw [alist_erase_of_lookup_none hnone]
    simp [hs]

/-- After storing room `R2` under `room_id` and running the reap check, the
room is gone from the registry exactly when both of `R2`'s connection maps
are empty. -/
theorem cleanup_after_set (sm : SessionManager) (room_id : String) (R2 : Room)
    (hnd : alist_keys_nodup sm.rooms) :
    (alist_lookup (_cleanup_room_if_empty ⟨alist_set sm.rooms room_id R2⟩ room_id).rooms
        room_id = none ↔
      (R2.signal_sockets = [] ∧ R2.transcribe_sockets = [])) := by
  unfold _cleanup_room_if_empty
  simp only [alist_lookup_set_self]
  by_cases hc : R2.signal_sockets = [] ∧ R2.transcribe_sockets = []
  · simp only [if_pos hc]
    have := alist_lookup_erase_self room_id (alist_keys_nodup_set room_id R2 hnd)
    simpa [this] using hc
  · simp [if_neg hc, alist_lookup_set_self, hc]

/-- C5: after a `remove_signal_socket` or `remove_transcribe_socket` call on
an existing room, the room is absent from the registry exactly when both of
its connection maps are empty at that moment; removing an absent role from a
room that still has a connection is a no-op on the whole state; and in the
concrete scenarios, add-signal followed by remove-signal reaps the room while
a remaining transcription connection keeps it alive. -/
theorem C5_room_reap (sm : SessionManager) (room_id speaker_id : String) (R : Room)
    (hnd : alist_keys_nodup sm.rooms)
    (hR : alist_lookup sm.rooms room_id = some R) :
    (alist_lookup (remove_signal_socket sm room_id speaker_id).rooms room_id = none ↔
      (alist_erase R.signal_sockets speaker_id = [] ∧ R.transcribe_sockets = [])) ∧
    (alist_lookup (remove_transcribe_socket sm room_id speaker_id).rooms room_id = none ↔
      (R.signal_sockets = [] ∧ alist_erase R.transcribe_sockets speaker_id = [])) ∧
    ((alist_lookup R.signal_sockets speaker_id = none ∧
        ¬(R.signal_sockets = [] ∧ R.transcribe_sockets = [])) →
      remove_signal_socket sm room_id speaker_id = sm) ∧
    alist_lookup (remove_signal_socket (add_signal_socket ⟨[]⟩ "R1" "Doctor" ⟨0, true⟩)
        "R1" "Doctor").rooms "R1" = none ∧
    alist_lookup (remove_signal_socket (add_transcribe_socket
        (add_signal_socket ⟨[]⟩ "R1" "Doctor" ⟨0, true⟩) "R1" "Patient" ⟨1, true⟩)
        "R1" "Doctor").rooms "R1" ≠ none := by
  refine ⟨?_, ?_, ?_, by decide, by decide⟩
  · rw [remove_signal_socket_present sm room_id speaker_id R hR]
    exact cleanup_after_set sm room_id _ hnd
  · rw [remove_transcribe_socket_present sm room_id speaker_id R hR]
    exact cleanup_after_set sm room_id _ hnd
  · rintro ⟨habs, hne⟩
    unfold remove_signal_socket
    rw [hR]
    simp only [habs, Option.isSome_none, Bool.false_eq_true, if_false]
    rw [alist_set_of_lookup_eq hR]
    show _cleanup_room_if_empty sm room_id = sm
    unfold _cleanup_room_if_empty
    rw [hR]
    simp [hne]

/-- Witness for `C5_room_reap` on a one-room registry holding a Doctor
signaling socket and a Patient transcription socket. -/
theorem C5_room_reap_witness :
    alist_keys_nodup
      (SessionManager.mk [("R1",
        ⟨[("Doctor", ⟨0, true⟩)], [("Patient", ⟨1, true⟩)], [], "Introduction"⟩)]).rooms ∧
    alist_lookup (SessionManager.mk [("R1",
        ⟨[("Doctor", ⟨0, true⟩)], [("Patient", ⟨1, true⟩)], [], "Introduction"⟩)]).rooms
      "R1" = some ⟨[("Doctor", ⟨0, true⟩)], [("Patient", ⟨1, true⟩)], [], "Introduction"⟩ ∧
    (alist_lookup (remove_signal_socket
        ⟨[("R1", ⟨[("Doctor", ⟨0, true⟩)], [("Patient", ⟨1, true⟩)], [], "Introduction"⟩)]⟩
        "R1" "Doctor").rooms "R1" = none ↔
      (alist_erase [("Doctor", (⟨0, true⟩ : WS))] "Doctor" = [] ∧
        ([("Patient", (⟨1, true⟩ : WS))] : List (String × WS)) = [])) :=
  ⟨by
    unfold alist_keys_nodup
    decide,
   by decide,
   (C5_room_reap
      ⟨[("R1", ⟨[("Doctor", ⟨0, true⟩)], [("Patient", ⟨1, true⟩)], [], "Introduction"⟩)]⟩
      "R1" "Doctor"
      ⟨[("Doctor", ⟨0, true⟩)], [("Patient", ⟨1, true⟩)], [], "Introduction"⟩
      (by unfold alist_keys_nodup; decide) (by decide)).1⟩

/-! ## Claim C9 -/

/-- `_ensure_room_exists` never re-creates or overwrites an existing room:
when the room id is present the registry is returned unchanged. -/
theorem ensure_room_exists_of_present (sm : SessionManager) (room_id : String) (R : Room)
    (hR : alist_lookup sm.rooms room_id = some R) :
    _ensure_room_exists sm room_id = sm := by
  unfold _ensure_room_exists
  rw [hR]

/-- `add_transcribe_socket` on an existing room: ensure is a no-op and the
socket is inserted into that room's transcription map. -/
theorem add_transcribe_socket_spec (sm : SessionManager) (room_id sid : String) (ws : WS)
    (R : Room) (hR : alist_lookup sm.rooms room_id = some R) :
    add_transcribe_socket sm room_id sid ws =
      ⟨alist_set sm.rooms room_id
        { R with transcribe_sockets := alist_set R.transcribe_sockets sid ws }⟩ := by
  unfold add_transcribe_socket
  rw [ensure_room_exists_of_present sm room_id R hR]
  simp only [hR]

/-- `add_transcribe_socket` on an absent room: ensure creates the default
room, then the socket is inserted. -/
theorem add_transcribe_socket_spec_none (sm : SessionManager) (room_id sid : String)
    (ws : WS) (h : alist_lookup sm.rooms room_id = none) :
    add_transcribe_socket sm room_id sid ws =
      ⟨alist_set (alist_set sm.rooms room_id defaultRoom) room_id
        { defaultRoom with
            transcribe_sockets := alist_set defaultRoom.transcribe_sockets sid ws }⟩ := by
  unfold add_transcribe_socket _ensure_room_exists
  simp only [h, alist_lookup_set_self]

/-- One `add_transcribe_socket` call registers its socket in the room and
preserves every other role's transcription socket of that room. -/
theorem add_transcribe_socket_registers (sm : SessionManager) (room_id sid : String)
    (ws : WS) :
    ∃ R2 : Room,
      alist_lookup (add_transcribe_socket sm room_id sid ws).rooms room_id = some R2 ∧
      alist_lookup R2.transcribe_sockets sid = some ws ∧
      (∀ (sid2 : String) (ws2 : WS), sid2 ≠ sid →
        alist_lookup ((alist_lookup sm.rooms room_id).getD
            defaultRoom).transcribe_sockets sid2 = some ws2 →
        alist_lookup R2.transcribe_sockets sid2 = some ws2) := by
  cases h : alist_lookup sm.rooms room_id with
  | none =>
    refine ⟨{ defaultRoom with
        transcribe_sockets := alist_set defaultRoom.transcribe_sockets sid ws }, ?_, ?_, ?_⟩
    · rw [add_transcribe_socket_spec_none sm room_id sid ws h]
      exact alist_lookup_set_self _ _ _
    · exact alist_lookup_set_self _ _ _
    · intro sid2 ws2 _ h2
      simp [defaultRoom, alist_lookup] at h2
  | some R =>
    refine ⟨{ R with transcribe_sockets := alist_set R.transcribe_sockets sid ws },
      ?_, ?_, ?_⟩
    · rw [add_transcribe_socket_spec sm room_id sid ws R h]
      exact alist_lookup_set_self _ _ _
    · exact alist_lookup_set_self _ _ _
    · intro sid2 ws2 hne h2
      simp only [Option.getD_some] at h2
      rw [show ({ R with transcribe_sockets := alist_set R.transcribe_sockets sid ws} :
        Room).transcribe_sockets = alist_set R.transcribe_sockets sid ws from rfl]
      rw [alist_lookup_set_ne R.transcribe_sockets ws hne]
      exact h2

/-- C9: the lookup-or-create step loses no update. `_ensure_room_exists` on
a present room returns the registry unchanged (the second creator observes
the first creator's room rather than overwriting it), and in both
interleavings of two transcription joins for the same room id — the two
`add_transcribe_socket` bodies are synchronous, containing no await point, so
the asyncio event loop runs each atomically — both sockets end up registered
in the same single room. -/
theorem C9_concurrent_create (sm : SessionManager) (room_id sidA sidB : String)
    (wsA wsB : WS) (hne : sidA ≠ sidB) :
    (∀ R, alist_lookup sm.rooms room_id = some R →
      _ensure_room_exists sm room_id = sm) ∧
    (∃ RF : Room,
      alist_lookup (add_transcribe_socket (add_transcribe_socket sm room_id sidA wsA)
          room_id sidB wsB).rooms room_id = some RF ∧
      alist_lookup RF.transcribe_sockets sidA = some wsA ∧
      alist_lookup RF.transcribe_sockets sidB = some wsB) ∧
    (∃ RF : Room,
      alist_lookup (add_transcribe_socket (add_transcribe_socket sm room_id sidB wsB)
          room_id sidA wsA).rooms room_id = some RF ∧
      alist_lookup RF.transcribe_sockets sidA = some wsA ∧
      alist_lookup RF.transcribe_sockets sidB = some wsB) := by
  refine ⟨fun R hR => ensure_room_exists_of_present sm room_id R hR, ?_, ?_⟩
  · rcases add_transcribe_socket_registers sm room_id sidA wsA with ⟨R1, hl1, hs1, _⟩
    rcases add_transcribe_socket_registers (add_transcribe_socket sm room_id sidA wsA)
      room_id sidB wsB with ⟨R2, hl2, hs2, hpres⟩
    refine ⟨R2, hl2, ?_, hs2⟩
    apply hpres sidA wsA hne
    rw [hl1]
    exact hs1
  · rcases add_transcribe_socket_registers sm room_id sidB wsB with ⟨R1, hl1, hs1, _⟩
    rcases add_transcribe_socket_registers (add_transcribe_socket sm room_id sidB wsB)
      room_id sidA wsA with ⟨R2, hl2, hs2, hpres⟩
    refine ⟨R2, hl2, hs2, ?_⟩
    apply hpres sidB wsB (Ne.symm hne)
    rw [hl1]
    exact hs1

/-- Witness for `C9_concurrent_create`: Doctor and Patient join room `"R1"`
concurrently on the empty registry. -/
theorem C9_concurrent_create_witness :
    ("Doctor" : String) ≠ "Patient" ∧
    (∃ RF : Room,
      alist_lookup (add_transcribe_socket (add_transcribe_socket ⟨[]⟩ "R1" "Doctor" ⟨0, true⟩)
          "R1" "Patient" ⟨1, true⟩).rooms "R1" = some RF ∧
      alist_lookup RF.transcribe_sockets "Doctor" = some ⟨0, true⟩ ∧
      alist_lookup RF.transcribe_sockets "Patient" = some ⟨1, true⟩) :=
  ⟨by decide,
   (C9_concurrent_create ⟨[]⟩ "R1" "Doctor" "Patient" ⟨0, true⟩ ⟨1, true⟩ (by decide)).2.1⟩

/-! ## Claim C8 -/

/-- C8: handling an `update_checklist` message for an existing room stores
the supplied step verbatim — a subsequent `get_checklist_step` returns it —
while emitting no outbound delivery on any channel (the handler performs no
transcription broadcast and no signaling relay for this branch), leaving the
audio buffers untouched and the connection alive. -/
theorem C8_update_checklist (c : Collabs) (sm : SessionManager)
    (ts : TranscriptionService) (room_id speaker_id step : String) (R : Room)
    (hR : alist_lookup sm.rooms room_id = some R) :
    (handle_message c sm ts room_id speaker_id (.update_checklist step)).sent = [] ∧
    (handle_message c sm ts room_id speaker_id (.update_checklist step)).terminated
      = false ∧
    (handle_message c sm ts room_id speaker_id (.update_checklist step)).ts = ts ∧
    get_checklist_step
        (handle_message c sm ts room_id speaker_id (.update_checklist step)).sm
        room_id = step := by
  refine ⟨rfl, rfl, rfl, ?_⟩
  show get_checklist_step (update_checklist_step sm room_id step) room_id = step
  simp [update_checklist_step, hR, get_checklist_step, alist_lookup_set_self]

/-- Witness for `C8_update_checklist`: the doctor advances room `"R1"` to
`"Medical History"`. -/
theorem C8_update_checklist_witness :
    alist_lookup (SessionManager.mk
        [("R1", ⟨[], [("Doctor", ⟨0, true⟩)], [], "Introduction"⟩)]).rooms "R1" =
      some ⟨[], [("Doctor", ⟨0, true⟩)], [], "Introduction"⟩ ∧
    ((handle_message ⟨fun _ => .ok "", fun _ => .error (), fun _ _ => .ok []⟩
        ⟨[("R1", ⟨[], [("Doctor", ⟨0, true⟩)], [], "Introduction"⟩)]⟩
        ⟨[]⟩ "R1" "Doctor" (.update_checklist "Medical History")).sent = [] ∧
      get_checklist_step (handle_message ⟨fun _ => .ok "", fun _ => .error (),
          fun _ _ => .ok []⟩
        ⟨[("R1", ⟨[], [("Doctor", ⟨0, true⟩)], [], "Introduction"⟩)]⟩
        ⟨[]⟩ "R1" "Doctor" (.update_checklist "Medical History")).sm "R1" =
        "Medical History") :=
  ⟨by decide, by
    have h := C8_update_checklist ⟨fun _ => .ok "", fun _ => .error (), fun _ _ => .ok []⟩
      ⟨[("R1", ⟨[], [("Doctor", ⟨0, true⟩)], [], "Introduction"⟩)]⟩ ⟨[]⟩
      "R1" "Doctor" "Medical History"
      ⟨[], [("Doctor", ⟨0, true⟩)], [], "Introduction"⟩ (by decide)
    exact ⟨h.1, h.2.2.2⟩⟩

/-- A frame of exactly `32000 = W` zero samples pushed into a key with no
backlog fills one window and leaves an empty backlog (proved symbolically —
`take`/`drop` over `replicate` — so no 32000-step computation is needed). -/
theorem process_audio_chunk_full_frame (svc : TranscriptionService) (r s : String)
    (h : alist_lookup svc.buffers (r, s) = none) :
    process_audio_chunk svc r s (List.replicate 32000 0) =
      (⟨alist_set svc.buffers (r, s) []⟩, some (List.replicate 32000 (0 : Int))) := by
  rw [process_audio_chunk_eq_push, h]
  simp only [Option.getD_none, push, List.nil_append, List.length_replicate, windowLen_eq]
  rw [if_pos (by norm_num : (32000 : Nat) ≤ 32000)]
  rw [List.drop_replicate, List.take_replicate, Nat.sub_self, Nat.min_self]
  rfl

/-- Audio handling when the transcription collaborator raises: the handler's
`except` removes this connection's socket and terminates the loop. -/
theorem handle_audio_transcribe_error (c : Collabs) (sm : SessionManager)
    (ts ts2 : TranscriptionService) (room_id speaker_id : String)
    (data chunk : List Int) (e : Unit)
    (hchunk : process_audio_chunk ts room_id speaker_id data = (ts2, some chunk))
    (herr : c.transcribe_chunk chunk = .error e) :
    handle_message c sm ts room_id speaker_id (.audio data) =
      ⟨remove_transcribe_socket sm room_id speaker_id, ts2, [], true⟩ := by
  simp only [handle_message, hchunk, herr]

/-- Audio handling when transcription succeeds with non-empty text but the
transcript broadcast raises: history was already appended, the partial
broadcast deliveries stand, and the caller's own socket is removed as the
loop terminates. -/
theorem handle_audio_broadcast_error (c : Collabs) (sm : SessionManager)
    (ts ts2 : TranscriptionService) (room_id speaker_id : String)
    (data chunk : List Int) (txt : String)
    (hchunk : process_audio_chunk ts room_id speaker_id data = (ts2, some chunk))
    (htxt : c.transcribe_chunk chunk = .ok txt) (hne : txt ≠ "")
    (hbc : (broadcast_transcribe
        (add_to_history sm room_id speaker_id txt
          (if speaker_id = "Patient" then some (analyze c txt) else none))
        room_id
        (Event.transcript speaker_id txt
          (if speaker_id = "Patient" then some (analyze c txt) else none))).2 = true) :
    handle_message c sm ts room_id speaker_id (.audio data) =
      ⟨remove_transcribe_socket
          (add_to_history sm room_id speaker_id txt
            (if speaker_id = "Patient" then some (analyze c txt) else none))
          room_id speaker_id,
        ts2,
        (broadcast_transcribe
          (add_to_history sm room_id speaker_id txt
            (if speaker_id = "Patient" then some (analyze c txt) else none))
          room_id
          (Event.transcript speaker_id txt
            (if speaker_id = "Patient" then some (analyze c txt) else none))).1,
        true⟩ := by
  simp only [handle_message, hchunk, htxt, if_neg hne, hbc, if_true]

/-- Audio handling for the Patient when transcription succeeds with
non-empty text, the transcript broadcast succeeds, and the question-rule
collaborator raises: history append and transcript deliveries stand, then the
handler's `except` removes this connection's socket and terminates the
loop. -/
theorem handle_audio_question_error (c : Collabs) (sm : SessionManager)
    (ts ts2 : TranscriptionService) (room_id : String) (data chunk : List Int)
    (txt : String) (e : Unit)
    (hchunk : process_audio_chunk ts room_id "Patient" data = (ts2, some chunk))
    (htxt : c.transcribe_chunk chunk = .ok txt) (hne : txt ≠ "")
    (hbc : (broadcast_transcribe
        (add_to_history sm room_id "Patient" txt (some (analyze c txt))) room_id
        (Event.transcript "Patient" txt (some (analyze c txt)))).2 = false)
    (hq : c.generate_question
        (get_history (add_to_history sm room_id "Patient" txt (some (analyze c txt)))
          room_id)
        (get_checklist_step (add_to_history sm room_id "Patient" txt (some (analyze c txt)))
          room_id) = .error e) :
    handle_message c sm ts room_id "Patient" (.audio data) =
      ⟨remove_transcribe_socket
          (add_to_history sm room_id "Patient" txt (some (analyze c txt))) room_id "Patient",
        ts2,
        (broadcast_transcribe
          (add_to_history sm room_id "Patient" txt (some (analyze c txt))) room_id
          (Event.transcript "Patient" txt (some (analyze c txt)))).1,
        true⟩ := by
  simp only [handle_message, hchunk, htxt, if_neg hne]
  simp [hbc, hq]

/-- Audio handling for the Patient when only the sentiment collaborator
raises: `analyze` degrades the failure to `"Neutral"` internally, the entry
is appended with `"Neutral"`, the transcript broadcast proceeds, and the
handler does not terminate (here in the no-question continuation). -/
theorem handle_audio_sentiment_error_continues (c : Collabs) (sm : SessionManager)
    (ts ts2 : TranscriptionService) (room_id : String) (data chunk : List Int)
    (txt : String) (e2 : Unit)
    (hchunk : process_audio_chunk ts room_id "Patient" data = (ts2, some chunk))
    (htxt : c.transcribe_chunk chunk = .ok txt) (hne : txt ≠ "")
    (hsent : c.sentiment_result txt = .error e2)
    (hbc : (broadcast_transcribe
        (add_to_history sm room_id "Patient" txt (some "Neutral")) room_id
        (Event.transcript "Patient" txt (some "Neutral"))).2 = false)
    (hq : c.generate_question
        (get_history (add_to_history sm room_id "Patient" txt (some "Neutral")) room_id)
        (get_checklist_step (add_to_history sm room_id "Patient" txt (some "Neutral"))
          room_id) = .ok []) :
    handle_message c sm ts room_id "Patient" (.audio data) =
      ⟨add_to_history sm room_id "Patient" txt (some "Neutral"), ts2,
        (broadcast_transcribe
          (add_to_history sm room_id "Patient" txt (some "Neutral")) room_id
          (Event.transcript "Patient" txt (some "Neutral"))).1,
        false⟩ := by
  have hA : analyze c txt = "Neutral" := by simp [analyze, hsent]
  simp only [handle_message, hchunk, htxt, if_neg hne]
  simp [hA, hbc, hq]

/-- A terminating first step ends the message loop with that step's
outcome. -/
theorem ws_loop_cons_terminated (c : Collabs) (sm sm2 : SessionManager)
    (ts ts2 : TranscriptionService) (room_id speaker_id : String) (m : Msg)
    (ms : List Msg) (ev : List (String × Event))
    (h : handle_message c sm ts room_id speaker_id m = ⟨sm2, ts2, ev, true⟩) :
    ws_loop c sm ts room_id speaker_id (m :: ms) = ⟨sm2, ts2, ev, true⟩ := by
  simp [ws_loop, h]

/-! ## Claim C3 -/

/-- C3 is violated by the code: `broadcast_transcribe` has no per-recipient
exception handling, so with Doctor (failing send) iterated before Patient
(healthy send) in a room's transcription slot, the broadcast delivers to
nobody — the first failure aborts the loop before Patient's send — and the
exception propagates; the broadcaster removes no connection (it performs no
registry mutation at all). The propagated exception instead makes
`ws_transcribe` remove the *calling* connection: below, an audio message
handled on behalf of the healthy Patient connection ends with Patient removed
and the entry for the failed Doctor socket still registered. -/
theorem C3_broadcast_failure_aborts :
    (broadcast_transcribe
        ⟨[("R1", ⟨[], [("Doctor", ⟨0, false⟩), ("Patient", ⟨1, true⟩)], [],
            "Introduction"⟩)]⟩
        "R1" ("hello" : String)) = ([], true) ∧
    handle_message ⟨fun _ => .ok "hi", fun _ => .error (), fun _ _ => .ok []⟩
        ⟨[("R1", ⟨[], [("Doctor", ⟨0, false⟩), ("Patient", ⟨1, true⟩)], [],
            "Introduction"⟩)]⟩
        ⟨[]⟩ "R1" "Patient" (.audio (List.replicate 32000 0)) =
      ⟨⟨[("R1", ⟨[], [("Doctor", ⟨0, false⟩)],
           [⟨"Patient", "hi", some "Neutral"⟩], "Introduction"⟩)]⟩,
       ⟨[(("R1", "Patient"), [])]⟩, [], true⟩ := by
  constructor
  · rfl
  · have hchunk : process_audio_chunk ⟨[]⟩ "R1" "Patient" (List.replicate 32000 0) =
        (⟨[(("R1", "Patient"), [])]⟩, some (List.replicate 32000 (0 : Int))) := by
      rw [process_audio_chunk_full_frame ⟨[]⟩ "R1" "Patient" rfl]
      rfl
    have h := handle_audio_broadcast_error
      ⟨fun _ => .ok "hi", fun _ => .error (), fun _ _ => .ok []⟩
      ⟨[("R1", ⟨[], [("Doctor", ⟨0, false⟩), ("Patient", ⟨1, true⟩)], [],
          "Introduction"⟩)]⟩
      ⟨[]⟩ ⟨[(("R1", "Patient"), [])]⟩ "R1" "Patient"
      (List.replicate 32000 0) (List.replicate 32000 0) "hi"
      hchunk rfl (by decide) (by decide)
    exact h.trans (by decide)

/-! ## Claim C4 -/

/-- C4 (amended): collaborator failures are not uniformly degraded to "no
result". (1) A transcription-collaborator failure while handling an audio
message reaches the handler's `except`, which removes this connection's
transcribe socket — the entire effect on shared state is
`remove_transcribe_socket`, so no other connection or room is touched and the
process survives — and ends this connection's message loop, leaving
subsequent messages unprocessed. (2) A question-rule collaborator failure
likewise terminates this connection only: the history append and transcript
deliveries made before it stand, then the socket is removed and the loop
ends. (3) Only a sentiment-collaborator failure is degraded — to `"Neutral"`
inside `SentimentAnalyzer.analyze` — with the handler continuing normally:
the entry is recorded with `"Neutral"`, the transcript is broadcast, and the
step does not terminate. -/
theorem C4_collaborator_failure (c : Collabs) :
    (∀ (sm : SessionManager) (ts ts2 : TranscriptionService)
        (room_id speaker_id : String) (data chunk : List Int) (e : Unit)
        (ms : List Msg),
      process_audio_chunk ts room_id speaker_id data = (ts2, some chunk) →
      c.transcribe_chunk chunk = .error e →
      handle_message c sm ts room_id speaker_id (.audio data) =
        ⟨remove_transcribe_socket sm room_id speaker_id, ts2, [], true⟩ ∧
      ws_loop c sm ts room_id speaker_id (.audio data :: ms) =
        ⟨remove_transcribe_socket sm room_id speaker_id, ts2, [], true⟩) ∧
    (∀ (sm : SessionManager) (ts ts2 : TranscriptionService) (room_id : String)
        (data chunk : List Int) (txt : String) (e : Unit),
      process_audio_chunk ts room_id "Patient" data = (ts2, some chunk) →
      c.transcribe_chunk chunk = .ok txt → txt ≠ "" →
      (broadcast_transcribe
        (add_to_history sm room_id "Patient" txt (some (analyze c txt))) room_id
        (Event.transcript "Patient" txt (some (analyze c txt)))).2 = false →
      c.generate_question
          (get_history (add_to_history sm room_id "Patient" txt (some (analyze c txt)))
            room_id)
          (get_checklist_step
            (add_to_history sm room_id "Patient" txt (some (analyze c txt))) room_id)
        = .error e →
      handle_message c sm ts room_id "Patient" (.audio data) =
        ⟨remove_transcribe_socket
            (add_to_history sm room_id "Patient" txt (some (analyze c txt)))
            room_id "Patient",
          ts2,
          (broadcast_transcribe
            (add_to_history sm room_id "Patient" txt (some (analyze c txt))) room_id
            (Event.transcript "Patient" txt (some (analyze c txt)))).1,
          true⟩) ∧
    (∀ (sm : SessionManager) (ts ts2 : TranscriptionService) (room_id : String)
        (data chunk : List Int) (txt : String) (e2 : Unit),
      process_audio_chunk ts room_id "Patient" data = (ts2, some chunk) →
      c.transcribe_chunk chunk = .ok txt → txt ≠ "" →
      c.sentiment_result txt = .error e2 →
      (broadcast_transcribe
        (add_to_history sm room_id "Patient" txt (some "Neutral")) room_id
        (Event.transcript "Patient" txt (some "Neutral"))).2 = false →
      c.generate_question
          (get_history (add_to_history sm room_id "Patient" txt (some "Neutral")) room_id)
          (get_checklist_step (add_to_history sm room_id "Patient" txt (some "Neutral"))
            room_id) = .ok [] →
      handle_message c sm ts room_id "Patient" (.audio data) =
        ⟨add_to_history sm room_id "Patient" txt (some "Neutral"), ts2,
          (broadcast_transcribe
            (add_to_history sm room_id "Patient" txt (some "Neutral")) room_id
            (Event.transcript "Patient" txt (some "Neutral"))).1,
          false⟩) ∧
    (∀ (text : String) (e2 : Unit), c.sentiment_result text = .error e2 →
      analyze c text = "Neutral") := by
  refine ⟨?_, ?_, ?_, ?_⟩
  · intro sm ts ts2 room_id speaker_id data chunk e ms hchunk herr
    have h1 := handle_audio_transcribe_error c sm ts ts2 room_id speaker_id
      data chunk e hchunk herr
    exact ⟨h1, ws_loop_cons_terminated _ _ _ _ _ _ _ _ _ _ h1⟩
  · intro sm ts ts2 room_id data chunk txt e hchunk htxt hne hbc hq
    exact handle_audio_question_error c sm ts ts2 room_id data chunk txt e
      hchunk htxt hne hbc hq
  · intro sm ts ts2 room_id data chunk txt e2 hchunk htxt hne hsent hbc hq
    exact handle_audio_sentiment_error_continues c sm ts ts2 room_id data chunk txt e2
      hchunk htxt hne hsent hbc hq
  · intro text e2 hs
    simp [analyze, hs]

/-- Witness for `C4_collaborator_failure` on a one-Patient room and a frame
completing one window: a raising transcription collaborator removes the
connection and stops the loop; a raising question-rule collaborator does the
same after the history append and transcript delivery; a raising sentiment
collaborator yields `"Neutral"` and the handler continues. -/
theorem C4_collaborator_failure_witness :
    process_audio_chunk ⟨[]⟩ "R1" "Patient" (List.replicate 32000 0) =
      (⟨[(("R1", "Patient"), [])]⟩, some (List.replicate 32000 (0 : Int))) ∧
    handle_message ⟨fun _ => .error (), fun _ => .error (), fun _ _ => .ok []⟩
        ⟨[("R1", ⟨[], [("Patient", ⟨1, true⟩)], [], "Introduction"⟩)]⟩
        ⟨[]⟩ "R1" "Patient" (.audio (List.replicate 32000 0)) =
      ⟨remove_transcribe_socket
          ⟨[("R1", ⟨[], [("Patient", ⟨1, true⟩)], [], "Introduction"⟩)]⟩ "R1" "Patient",
        ⟨[(("R1", "Patient"), [])]⟩, [], true⟩ ∧
    handle_message ⟨fun _ => .ok "hi", fun _ => .ok ("POSITIVE", 1), fun _ _ => .error ()⟩
        ⟨[("R1", ⟨[], [("Patient", ⟨1, true⟩)], [], "Introduction"⟩)]⟩
        ⟨[]⟩ "R1" "Patient" (.audio (List.replicate 32000 0)) =
      ⟨remove_transcribe_socket
          (add_to_history ⟨[("R1", ⟨[], [("Patient", ⟨1, true⟩)], [], "Introduction"⟩)]⟩
            "R1" "Patient" "hi"
            (some (analyze
              ⟨fun _ => .ok "hi", fun _ => .ok ("POSITIVE", 1), fun _ _ => .error ()⟩ "hi")))
          "R1" "Patient",
        ⟨[(("R1", "Patient"), [])]⟩,
        (broadcast_transcribe
          (add_to_history ⟨[("R1", ⟨[], [("Patient", ⟨1, true⟩)], [], "Introduction"⟩)]⟩
            "R1" "Patient" "hi"
            (some (analyze
              ⟨fun _ => .ok "hi", fun _ => .ok ("POSITIVE", 1), fun _ _ => .error ()⟩ "hi")))
          "R1"
          (Event.transcript "Patient" "hi"
            (some (analyze
              ⟨fun _ => .ok "hi", fun _ => .ok ("POSITIVE", 1), fun _ _ => .error ()⟩
              "hi")))).1,
        true⟩ ∧
    handle_message ⟨fun _ => .ok "hi", fun _ => .error (), fun _ _ => .ok []⟩
        ⟨[("R1", ⟨[], [("Patient", ⟨1, true⟩)], [], "Introduction"⟩)]⟩
        ⟨[]⟩ "R1" "Patient" (.audio (List.replicate 32000 0)) =
      ⟨add_to_history ⟨[("R1", ⟨[], [("Patient", ⟨1, true⟩)], [], "Introduction"⟩)]⟩
          "R1" "Patient" "hi" (some "Neutral"),
        ⟨[(("R1", "Patient"), [])]⟩,
        (broadcast_transcribe
          (add_to_history ⟨[("R1", ⟨[], [("Patient", ⟨1, true⟩)], [], "Introduction"⟩)]⟩
            "R1" "Patient" "hi" (some "Neutral"))
          "R1" (Event.transcript "Patient" "hi" (some "Neutral"))).1,
        false⟩ ∧
    analyze ⟨fun _ => .ok "hi", fun _ => .error (), fun _ _ => .ok []⟩ "hi" = "Neutral" := by
  have hch : process_audio_chunk ⟨[]⟩ "R1" "Patient" (List.replicate 32000 0) =
      ((⟨[(("R1", "Patient"), [])]⟩ : TranscriptionService),
        some (List.replicate 32000 (0 : Int))) := by
    rw [process_audio_chunk_full_frame ⟨[]⟩ "R1" "Patient" rfl]
    rfl
  refine ⟨hch, ?_, ?_, ?_, ?_⟩
  · exact ((C4_collaborator_failure
      ⟨fun _ => .error (), fun _ => .error (), fun _ _ => .ok []⟩).1
      ⟨[("R1", ⟨[], [("Patient", ⟨1, true⟩)], [], "Introduction"⟩)]⟩
      ⟨[]⟩ ⟨[(("R1", "Patient"), [])]⟩ "R1" "Patient"
      (List.replicate 32000 0) (List.replicate 32000 0) () [] hch rfl).1
  · exact (C4_collaborator_failure
      ⟨fun _ => .ok "hi", fun _ => .ok ("POSITIVE", 1), fun _ _ => .error ()⟩).2.1
      ⟨[("R1", ⟨[], [("Patient", ⟨1, true⟩)], [], "Introduction"⟩)]⟩
      ⟨[]⟩ ⟨[(("R1", "Patient"), [])]⟩ "R1"
      (List.replicate 32000 0) (List.replicate 32000 0) "hi" ()
      hch rfl (by decide) (by decide) rfl
  · exact (C4_collaborator_failure
      ⟨fun _ => .ok "hi", fun _ => .error (), fun _ _ => .ok []⟩).2.2.1
      ⟨[("R1", ⟨[], [("Patient", ⟨1, true⟩)], [], "Introduction"⟩)]⟩
      ⟨[]⟩ ⟨[(("R1", "Patient"), [])]⟩ "R1"
      (List.replicate 32000 0) (List.replicate 32000 0) "hi" ()
      hch rfl (by decide) rfl (by decide) rfl
  · exact (C4_collaborator_failure
      ⟨fun _ => .ok "hi", fun _ => .error (), fun _ _ => .ok []⟩).2.2.2 "hi" () rfl

/-- Counterexample to C4 as stated: with a failing transcription
collaborator, handling one audio message terminates the connection's loop —
the subsequent `update_checklist` message is never processed and the
checklist step never becomes `"Medical History"` — and the connection is
removed from the room (reaping it) instead of processing continuing with "no
result". -/
theorem C4_counterexample :
    ws_loop ⟨fun _ => .error (), fun _ => .error (), fun _ _ => .ok []⟩
        ⟨[("R1", ⟨[], [("Patient", ⟨1, true⟩)], [], "Introduction"⟩)]⟩
        ⟨[]⟩ "R1" "Patient"
        [.audio (List.replicate 32000 0), .update_checklist "Medical History"] =
      ⟨⟨[]⟩, ⟨[(("R1", "Patient"), [])]⟩, [], true⟩ := by
  have hchunk : process_audio_chunk ⟨[]⟩ "R1" "Patient" (List.replicate 32000 0) =
      (⟨[(("R1", "Patient"), [])]⟩, some (List.replicate 32000 (0 : Int))) := by
    rw [process_audio_chunk_full_frame ⟨[]⟩ "R1" "Patient" rfl]
    rfl
  have h1 := handle_audio_transcribe_error
    ⟨fun _ => .error (), fun _ => .error (), fun _ _ => .ok []⟩
    ⟨[("R1", ⟨[], [("Patient", ⟨1, true⟩)], [], "Introduction"⟩)]⟩
    ⟨[]⟩ ⟨[(("R1", "Patient"), [])]⟩ "R1" "Patient"
    (List.replicate 32000 0) (List.replicate 32000 0) () hchunk rfl
  rw [ws_loop_cons_terminated _ _ _ _ _ _ _ _ _ _ h1]
  decide

/-! ## Claim C7 -/

/-- Reading back a heap cell just overwritten (at a valid reference). -/
theorem list_getD_set_self {α : Type} (d : α) :
    ∀ (l : List α) (r : Nat) (v : α), r < l.length → (l.set r v).getD r d = v := by
  intro l
  induction l with
  | nil => intro r v h; simp at h
  | cons a as ih =>
    intro r v h
    cases r with
    | zero => simp
    | succ n =>
      simp only [List.set_cons_succ, List.getD_cons_succ]
      exact ih n v (by simpa using h)

/-- C7 (amended): `get_history` on an existing room returns the room's live
history object — at call time it reads exactly the room's history, in
insertion order, and the registry is untouched — but it is an alias, not a
snapshot: an `add_to_history` performed after the call is visible through the
already-returned reference. -/
theorem C7_live_history (s : RefModel.State) (room_id : String) (R : RefModel.Room)
    (hR : alist_lookup s.rooms room_id = some R)
    (hvalid : R.history < s.heap.length) :
    RefModel.get_history s room_id = (s, R.history) ∧
    (∀ speaker text sentiment,
      RefModel.readRef (RefModel.add_to_history s room_id speaker text sentiment)
          R.history =
        RefModel.readRef s R.history ++ [⟨speaker, text, sentiment⟩]) := by
  constructor
  · simp [RefModel.get_history, hR]
  · intro sp t sent
    unfold RefModel.add_to_history
    simp only [hR]
    unfold RefModel.writeRef RefModel.readRef
    exact list_getD_set_self [] s.heap R.history _ hvalid

/-- Witness for `C7_live_history` on a one-room state with an allocated empty
history object. -/
theorem C7_live_history_witness :
    alist_lookup (RefModel.State.mk [("R1", ⟨[], [], 0, "Introduction"⟩)] [[]]).rooms
        "R1" = some ⟨[], [], 0, "Introduction"⟩ ∧
    (0 : Nat) < 1 ∧
    RefModel.readRef
        (RefModel.add_to_history ⟨[("R1", ⟨[], [], 0, "Introduction"⟩)], [[]]⟩
          "R1" "Doctor" "hello" none) 0 =
      RefModel.readRef (⟨[("R1", ⟨[], [], 0, "Introduction"⟩)], [[]]⟩ : RefModel.State)
          0 ++ [⟨"Doctor", "hello", none⟩] :=
  ⟨by decide, by decide,
   (C7_live_history ⟨[("R1", ⟨[], [], 0, "Introduction"⟩)], [[]]⟩ "R1"
      ⟨[], [], 0, "Introduction"⟩ (by decide) (by decide)).2 "Doctor" "hello" none⟩

/-- Counterexample to C7 as stated: `get_history` has no snapshot semantics.
For a freshly created room, the reference returned by `get_history` reads
`[]` at call time, yet after a later `add_to_history` the very same returned
reference reads the appended entry — the later append is retroactively
visible in the already-returned sequence. -/
theorem C7_counterexample :
    RefModel.readRef
        (RefModel.add_transcribe_socket ⟨[], []⟩ "R1" "Doctor" ⟨0, true⟩)
        (RefModel.get_history
          (RefModel.add_transcribe_socket ⟨[], []⟩ "R1" "Doctor" ⟨0, true⟩) "R1").2 = [] ∧
    RefModel.readRef
        (RefModel.add_to_history
          (RefModel.add_transcribe_socket ⟨[], []⟩ "R1" "Doctor" ⟨0, true⟩)
          "R1" "Doctor" "hello" none)
        (RefModel.get_history
          (RefModel.add_transcribe_socket ⟨[], []⟩ "R1" "Doctor" ⟨0, true⟩) "R1").2 =
      [⟨"Doctor", "hello", none⟩] := by
  decide
